import Mathlib

/-!
# Verification of the goal-tracker backend (`src/app.py`)

Shallow embedding of the Flask + MongoDB application `app.py`.

Modelling conventions:
* A MongoDB collection is a `List` of documents in insertion order
  (`insert_one` appends; `find` without a sort returns insertion order).
* `ObjectId`s and user ids are modelled as `Nat` (user ids are stored as
  strings of the owning user's `_id`; only equality on them matters).
* `datetime` values are modelled as a calendar day (`Int`, days relative to
  an arbitrary epoch) together with an hour of day (`Nat`).  Every range
  query made by the code spans either whole calendar days
  (`[00:00:00.000, 23:59:59.999999]` of a day, so membership depends only
  on the day) or a half-open / half-closed union of whole days, so this
  granularity is exact for the queried predicates.
* Python `float` amounts are modelled as exact rationals `ℚ`; the claims
  proved here never depend on float representation error.
* Python `round(x, 1)` is modelled as rounding `x * 10` to the nearest
  integer (`round1` below).  CPython rounds half-to-even on floats; no
  claim below distinguishes the two at a half-way point, and both the
  source expression and the specification sentence use the same `round`,
  so the verdicts are independent of this choice.
-/

/-- A `datetime` value: calendar day (relative to an arbitrary epoch) and
hour of day.  The code only ever compares datetimes against whole-day
boundaries and reads `.hour`, so this is a faithful abstraction. -/
structure DateTime where
  day : Int
  hour : Nat
deriving DecidableEq, Repr

/-- Document of the `goals` collection, exactly the fields written by
`Goal.save` (`text`, `user_id`, `completed`, `priority`, `category`,
`due_date`, `created_at`, `updated_at`) plus the store-generated `_id`.
`due_date` is stored at day granularity (`datetime.combine(d, min.time())`). -/
structure GoalDoc where
  id : Nat
  text : String
  user_id : Nat
  completed : Bool
  priority : String
  category : String
  due_date : Option Int
  created_at : DateTime
  updated_at : DateTime
deriving DecidableEq, Repr

/-- Document of the `habits` collection, exactly the fields written by
`Habit.save` (`name`, `user_id`, `frequency`, `target_count`, `description`,
`category`, `is_active`, `created_at`) plus `_id`. -/
structure HabitDoc where
  id : Nat
  name : String
  user_id : Nat
  frequency : String
  target_count : Nat
  description : Option String
  category : String
  is_active : Bool
  created_at : DateTime
deriving DecidableEq, Repr

/-- Document of the `habit_logs` collection.  `HabitLog.save` writes
`habit_id`, `user_id`, `completed_count`, `notes`, `date` (day precision).
The analytics code additionally probes a `completed` field via
`log.get('completed', False)`; in a schema-flexible store that field may be
absent, so it is modelled as `Option Bool` (absent = `none`); no writer in
the repository ever sets it. -/
structure HabitLogDoc where
  id : Nat
  habit_id : Nat
  user_id : Nat
  completed_count : Nat
  notes : Option String
  date : Int
  completed : Option Bool
deriving DecidableEq, Repr

/-- Document of the `utility_bills` collection, exactly the fields written
by `UtilityBill.save` (`bill_type`, `user_id`, `amount`, `date`,
`consumption`, `unit`, `notes`) plus `_id`. -/
structure BillDoc where
  id : Nat
  bill_type : String
  user_id : Nat
  amount : ℚ
  date : Int
  consumption : ℚ
  unit : String
  notes : Option String
deriving DecidableEq, Repr

/-- Document of the `users` collection, the fields written by `User.save`
plus `_id`. -/
structure UserDoc where
  id : Nat
  username : String
  email : String
  password_hash : Option String
  google_id : Option String
  profile_pic : Option String
  created_at : DateTime
deriving DecidableEq, Repr

/-- Document of the `user_preferences` collection.  Only the `user_id` key
is ever used in queries and deletions; the display/formatting payload
(`theme`, `date_format`, …) is collapsed into `theme` as a representative,
since no claim depends on the other preference fields. -/
structure PrefDoc where
  user_id : Nat
  theme : String
deriving DecidableEq, Repr

/-- `update_one(filter, {'$set': …})`: update the first document matching
the filter, leave everything else unchanged. -/
def updateFirst (p : α → Bool) (f : α → α) : List α → List α
  | [] => []
  | x :: t => if p x then f x :: t else x :: updateFirst p f t

/-- `delete_one(filter)`: remove the first document matching the filter. -/
def removeFirst (p : α → Bool) : List α → List α
  | [] => []
  | x :: t => if p x then t else x :: removeFirst p t

theorem mem_updateFirst_or_found {p : α → Bool} {f : α → α} {l : List α}
    {d : α} (h : d ∈ l) :
    d ∈ updateFirst p f l ∨ l.find? p = some d := by
  induction l with
  | nil => cases h
  | cons x t ih =>
    by_cases hx : p x = true
    · rcases List.mem_cons.mp h with rfl | hm
      · exact Or.inr (by simp [List.find?, hx])
      · exact Or.inl (by simp [updateFirst, hx, List.mem_cons, hm])
    · simp only [Bool.not_eq_true] at hx
      rcases List.mem_cons.mp h with rfl | hm
      · exact Or.inl (by simp [updateFirst, hx])
      · rcases ih hm with h' | h'
        · exact Or.inl (by simp [updateFirst, hx, List.mem_cons, h'])
        · exact Or.inr (by simp [List.find?, hx, h'])

theorem mem_removeFirst_or_found {p : α → Bool} {l : List α}
    {d : α} (h : d ∈ l) :
    d ∈ removeFirst p l ∨ l.find? p = some d := by
  induction l with
  | nil => cases h
  | cons x t ih =>
    by_cases hx : p x = true
    · rcases List.mem_cons.mp h with rfl | hm
      · exact Or.inr (by simp [List.find?, hx])
      · exact Or.inl (by simp [removeFirst, hx, hm])
    · simp only [Bool.not_eq_true] at hx
      rcases List.mem_cons.mp h with rfl | hm
      · exact Or.inl (by simp [removeFirst, hx])
      · rcases ih hm with h' | h'
        · exact Or.inl (by simp [removeFirst, hx, List.mem_cons, h'])
        · exact Or.inr (by simp [List.find?, hx, h'])

namespace Goal

/-- `Goal.find_by_user_id`: `mongo.db.goals.find({'user_id': user_id})`. -/
def find_by_user_id (goals : List GoalDoc) (user_id : Nat) : List GoalDoc :=
  goals.filter (fun g => g.user_id == user_id)

/-- `Goal.find_by_id`: `mongo.db.goals.find_one({'_id': ObjectId(goal_id)})`. -/
def find_by_id (goals : List GoalDoc) (goal_id : Nat) : Option GoalDoc :=
  goals.find? (fun g => g.id == goal_id)

/-- The document `Goal.save` writes for goal `g`: all eight fields of the
in-memory goal, with `'updated_at': datetime.utcnow()` freshly stamped. -/
def saveDoc (g : GoalDoc) (now : DateTime) : GoalDoc :=
  { g with updated_at := now }

/-- `Goal.save` on a goal that already has an id:
`mongo.db.goals.update_one({'_id': ObjectId(self.id)}, {'$set': goal_data})`. -/
def save_existing (goals : List GoalDoc) (g : GoalDoc) (now : DateTime) :
    List GoalDoc :=
  updateFirst (fun d => d.id == g.id) (fun _ => saveDoc g now) goals

/-- `Goal.delete`: `mongo.db.goals.delete_one({'_id': ObjectId(self.id)})`. -/
def deleteDoc (goals : List GoalDoc) (gid : Nat) : List GoalDoc :=
  removeFirst (fun d => d.id == gid) goals

end Goal

namespace Habit

/-- `Habit.find_by_user_id`:
`mongo.db.habits.find({'user_id': user_id, 'is_active': True})`. -/
def find_by_user_id (habits : List HabitDoc) (user_id : Nat) : List HabitDoc :=
  habits.filter (fun h => h.user_id == user_id && h.is_active)

end Habit

namespace UtilityBill

/-- `UtilityBill.find_by_user_and_type`:
`mongo.db.utility_bills.find({'user_id': …, 'bill_type': …}).sort('date', 1)`. -/
def find_by_user_and_type (bills : List BillDoc) (user_id : Nat)
    (bill_type : String) : List BillDoc :=
  (bills.filter (fun b => b.user_id == user_id && b.bill_type == bill_type)).mergeSort
    (fun a b => decide (a.date ≤ b.date))

end UtilityBill

/-- Route `GET /toggle/<goal_id>` (`toggle_goal`): look the goal up by id,
bail out unless it belongs to the session user `u`, otherwise negate
`completed`, stamp `updated_at = datetime.utcnow()` and save.  (`save`
re-stamps `updated_at` with its own `utcnow()`; both stamps are the same
request instant `now`.) -/
def toggle_goal (goals : List GoalDoc) (u : Nat) (goal_id : Nat)
    (now : DateTime) : List GoalDoc :=
  match Goal.find_by_id goals goal_id with
  | none => goals
  | some g =>
    if g.user_id != u then goals
    else Goal.save_existing goals
      { g with completed := !g.completed, updated_at := now } now

/-- Route `POST /edit/<goal_id>` (`edit_goal`) with a valid form: overwrite
`text`, `priority`, `category` (already defaulted to `'general'` when the
form field is empty), `due_date` and `updated_at`, then save — but only
when the goal exists and belongs to the session user. -/
def edit_goal (goals : List GoalDoc) (u : Nat) (goal_id : Nat)
    (text priority category : String) (due_date : Option Int)
    (now : DateTime) : List GoalDoc :=
  match Goal.find_by_id goals goal_id with
  | none => goals
  | some g =>
    if g.user_id != u then goals
    else Goal.save_existing goals
      { g with text := text, priority := priority, category := category,
               due_date := due_date, updated_at := now } now

/-- Route `GET /delete/<goal_id>` (`delete_goal`): delete the goal only
when it exists and belongs to the session user. -/
def delete_goal (goals : List GoalDoc) (u : Nat) (goal_id : Nat) :
    List GoalDoc :=
  match Goal.find_by_id goals goal_id with
  | none => goals
  | some g => if g.user_id != u then goals else Goal.deleteDoc goals g.id

/-- Route `POST /bulk_action` (`bulk_action`): first collect the goals from
`goal_ids` that exist and belong to the session user (from the pre-mutation
state, as the Python loop does), then either mark each completed and save,
or delete each, sequentially. -/
def bulk_action (goals : List GoalDoc) (u : Nat) (action : String)
    (goal_ids : List Nat) (now : DateTime) : List GoalDoc :=
  let valid_goals := goal_ids.filterMap (fun gid =>
    match Goal.find_by_id goals gid with
    | some g => if g.user_id == u then some g else none
    | none => none)
  if action == "complete" then
    valid_goals.foldl (fun db g =>
      Goal.save_existing db { g with completed := true, updated_at := now } now) goals
  else if action == "delete" then
    valid_goals.foldl (fun db g => Goal.deleteDoc db g.id) goals
  else goals

/-- Route `POST /edit_habit/<habit_id>` (`edit_habit`):
`find_one({'_id': …, 'user_id': current_user.id})`, then
`update_one({'_id': …, 'user_id': …}, {'$set': {name, description,
frequency, target_count, category}})`. -/
def edit_habit (habits : List HabitDoc) (u hid : Nat) (name : String)
    (description : Option String) (frequency : String) (target_count : Nat)
    (category : String) : List HabitDoc :=
  match habits.find? (fun h => h.id == hid && h.user_id == u) with
  | none => habits
  | some _ =>
    updateFirst (fun h => h.id == hid && h.user_id == u)
      (fun h =>
        { h with
          name := name, description := description, frequency := frequency,
          target_count := target_count, category := category }) habits

/-- Route `DELETE /delete_habit/<habit_id>` (`delete_habit`): after the
ownership check, `delete_one({'_id': …, 'user_id': …})` on `habits` and
`delete_many({'habit_id': ObjectId(habit_id)})` on `habit_logs` (the log
deletion filters on `habit_id` only, not on `user_id`). -/
def delete_habit (habits : List HabitDoc) (logs : List HabitLogDoc)
    (u hid : Nat) : List HabitDoc × List HabitLogDoc :=
  match habits.find? (fun h => h.id == hid && h.user_id == u) with
  | none => (habits, logs)
  | some _ =>
    (removeFirst (fun h => h.id == hid && h.user_id == u) habits,
     logs.filter (fun l => !(l.habit_id == hid)))

/-- Route `POST /edit_bill/<bill_id>` (`edit_bill`):
`find_one({'_id': …, 'user_id': …})` then `update_one` with the same filter
setting `bill_type`, `amount`, `consumption`, `unit`, `notes`, `date`. -/
def edit_bill (bills : List BillDoc) (u bid : Nat) (bill_type : String)
    (amount consumption : ℚ) (unit : String) (notes : Option String)
    (d : Int) : List BillDoc :=
  match bills.find? (fun b => b.id == bid && b.user_id == u) with
  | none => bills
  | some _ =>
    updateFirst (fun b => b.id == bid && b.user_id == u)
      (fun b =>
        { b with
          bill_type := bill_type, amount := amount, consumption := consumption,
          unit := unit, notes := notes, date := d }) bills

/-- Route `DELETE /delete_bill/<bill_id>` (`delete_bill`):
`find_one({'_id': …, 'user_id': …})` then `delete_one` with the same filter. -/
def delete_bill (bills : List BillDoc) (u bid : Nat) : List BillDoc :=
  match bills.find? (fun b => b.id == bid && b.user_id == u) with
  | none => bills
  | some _ => removeFirst (fun b => b.id == bid && b.user_id == u) bills

/-- Route `POST /log_habit/<habit_id>` (`log_habit`): after the ownership
check on the habit, look for today's log of that habit/user; `$inc` its
`completed_count` by 1 when present, otherwise insert a fresh log with
`completed_count = 1` (via `HabitLog.save`, which writes `habit_id`,
`user_id`, `completed_count`, `notes=None`, `date`, and no `completed`
field).  `newId` is the store-generated `_id` of an inserted log. -/
def log_habit (habits : List HabitDoc) (logs : List HabitLogDoc)
    (u hid : Nat) (today : Int) (newId : Nat) : List HabitLogDoc :=
  match habits.find? (fun h => h.id == hid && h.user_id == u) with
  | none => logs
  | some _ =>
    match logs.find? (fun l => l.habit_id == hid && l.user_id == u && l.date == today) with
    | some existing_log =>
      updateFirst (fun l => l.id == existing_log.id)
        (fun l => { l with completed_count := l.completed_count + 1 }) logs
    | none =>
      logs ++ [{ id := newId, habit_id := hid, user_id := u,
                 completed_count := 1, notes := none, date := today,
                 completed := none }]

/-- The full database state: the six collections the application writes,
plus the `bills` collection that only `delete_account` addresses
(`mongo.db.bills` — distinct from `mongo.db.utility_bills`). -/
structure AppDB where
  users : List UserDoc
  goals : List GoalDoc
  habits : List HabitDoc
  habit_logs : List HabitLogDoc
  utility_bills : List BillDoc
  bills : List BillDoc
  user_preferences : List PrefDoc
deriving DecidableEq, Repr

/-- Route `POST /add_bill` (`add_bill`): construct a `UtilityBill` for the
session user and `save` it — an `insert_one` into `utility_bills`. -/
def add_bill (db : AppDB) (u : Nat) (bill_type : String)
    (amount consumption : ℚ) (unit : String) (notes : Option String)
    (d : Int) (newId : Nat) : AppDB :=
  { db with utility_bills := db.utility_bills ++
      [{ id := newId, bill_type := bill_type, user_id := u, amount := amount,
         date := d, consumption := consumption, unit := unit, notes := notes }] }

/-- Route `POST /delete_account` (`delete_account`): when the confirmation
text (lower-cased) is `"delete"`, run `delete_many({'user_id': user_id})`
on `goals`, `habits`, `habit_logs`, `bills`, `user_preferences`, then
`delete_one({'_id': ObjectId(user_id)})` on `users`.  Note the deletion
targets the `bills` collection, not `utility_bills`. -/
def delete_account (db : AppDB) (u : Nat) (confirm : String) : AppDB :=
  if confirm != "delete" then db
  else
    { users := removeFirst (fun x => x.id == u) db.users,
      goals := db.goals.filter (fun g => !(g.user_id == u)),
      habits := db.habits.filter (fun h => !(h.user_id == u)),
      habit_logs := db.habit_logs.filter (fun l => !(l.user_id == u)),
      utility_bills := db.utility_bills,
      bills := db.bills.filter (fun b => !(b.user_id == u)),
      user_preferences := db.user_preferences.filter (fun p => !(p.user_id == u)) }

/-- Number of the user's goals with `completed: True` and `updated_at`
inside calendar day `d` — the `/analytics` day window
`{'$gte': start_of_day, '$lte': end_of_day}` covers exactly day `d`. -/
def completedOnDay (goals : List GoalDoc) (u : Nat) (d : Int) : Nat :=
  (goals.filter (fun g =>
    g.user_id == u && g.completed && g.updated_at.day == d)).length

def current_streakAux (goals : List GoalDoc) (u : Nat) : Nat → Int → Nat
  | 0, _ => 0
  | n + 1, d =>
    if 0 < completedOnDay goals u d then current_streakAux goals u n (d - 1) + 1
    else 0

/-- `/analytics` current streak: `for i in range(30)`, day `today - i`;
increment while the day has a completed goal, `break` at the first day
without one. -/
def current_streak (goals : List GoalDoc) (u : Nat) (today : Int) : Nat :=
  current_streakAux goals u 30 today

/-- Python `round(x, 1)` on the exact rational value. -/
def round1 (q : ℚ) : ℚ := (round (q * 10) : ℤ) / 10

/-- `mongo.db.goals.count_documents({'user_id': current_user.id})`. -/
def total_goals (goals : List GoalDoc) (u : Nat) : Nat :=
  (goals.filter (fun g => g.user_id == u)).length

/-- `count_documents({'user_id': …, 'completed': True})`. -/
def completed_goals (goals : List GoalDoc) (u : Nat) : Nat :=
  (goals.filter (fun g => g.user_id == u && g.completed)).length

/-- `/analytics` goal completion rate:
`round((completed_goals / total_goals * 100) if total_goals > 0 else 0, 1)`. -/
def completion_rate (goals : List GoalDoc) (u : Nat) : ℚ :=
  round1 (if 0 < total_goals goals u
          then (completed_goals goals u : ℚ) / (total_goals goals u) * 100
          else 0)

/-- Completions in the trailing 30-day window:
`updated_at >= last_month_start`, `last_month_start` being midnight of day
`today - 30`, so the window is every day `≥ today - 30`. -/
def last_month_completed (goals : List GoalDoc) (u : Nat) (today : Int) : Nat :=
  (goals.filter (fun g => g.user_id == u && g.completed &&
    decide (today - 30 ≤ g.updated_at.day))).length

/-- Completions in the preceding 30-day window:
`previous_month_start <= updated_at < previous_month_end`, i.e. the days
`today - 60 ≤ day < today - 30`. -/
def previous_month_completed (goals : List GoalDoc) (u : Nat) (today : Int) : Nat :=
  (goals.filter (fun g => g.user_id == u && g.completed &&
    decide (today - 60 ≤ g.updated_at.day) &&
    decide (g.updated_at.day < today - 30))).length

/-- `/analytics` monthly improvement: starts at `0` and is only
recomputed — as the rounded percentage change — when
`previous_month_completed > 0`. -/
def monthly_improvement (goals : List GoalDoc) (u : Nat) (today : Int) : ℚ :=
  if 0 < previous_month_completed goals u today then
    round1 ((((last_month_completed goals u today : ℚ) -
      (previous_month_completed goals u today : ℚ)) /
      (previous_month_completed goals u today : ℚ)) * 100)
  else 0

/-- `get_time_of_day(hour)` from `/analytics`. -/
def get_time_of_day (hour : Nat) : String :=
  if 5 ≤ hour ∧ hour < 12 then "morning"
  else if 12 ≤ hour ∧ hour < 17 then "afternoon"
  else if 17 ≤ hour ∧ hour < 21 then "evening"
  else "night"

/-- The `updated_at.hour` values of the user's completed goals, in cursor
(collection) order; every modelled goal document has `updated_at`, so the
cursor's `'updated_at': {'$exists': True}` clause is vacuous here.  This
list fixes both the multiset of counts and the insertion order of the
Python `hour_counts` dict. -/
def completedHours (goals : List GoalDoc) (u : Nat) : List Nat :=
  (goals.filter (fun g => g.user_id == u && g.completed)).map
    (fun g => g.updated_at.hour)

/-- The keys of `hour_counts` in dict insertion order (first appearance). -/
def hourKeys (hours : List Nat) : List Nat :=
  hours.foldl (fun acc h => if acc.contains h then acc else acc ++ [h]) []

/-- `most_productive_hour`: default `9`, replaced by
`max(hour_counts, key=hour_counts.get)` when the dict is nonempty —
Python's `max` returns the first key (in insertion order) whose count is
maximal. -/
def most_productive_hour (goals : List GoalDoc) (u : Nat) : Nat :=
  match hourKeys (completedHours goals u) with
  | [] => 9
  | k :: ks =>
    ks.foldl (fun best h =>
      if (completedHours goals u).count h > (completedHours goals u).count best
      then h else best) k

/-- `most_productive_time = get_time_of_day(most_productive_hour)`. -/
def most_productive_time (goals : List GoalDoc) (u : Nat) : String :=
  get_time_of_day (most_productive_hour goals u)

def habitsViewStreakAux (logs : List HabitLogDoc) (u hid tc : Nat) :
    Nat → Int → Nat
  | 0, _ => 0
  | n + 1, d =>
    match logs.find? (fun l => l.habit_id == hid && l.user_id == u && l.date == d) with
    | some l =>
      if tc ≤ l.completed_count then habitsViewStreakAux logs u hid tc n (d - 1) + 1
      else 0
    | none => 0

/-- Streak computed by the `/habits` route: a `while True` loop walking
back one day at a time; a day qualifies when a log for the habit and day
exists with `completed_count >= habit.target_count` (`tc`).  The loop has
no day bound; it terminates because each qualifying day needs a log with a
distinct `date`, so it runs at most `logs.length + 1` iterations — fuel
`logs.length + 1` therefore computes the exact loop result. -/
def habitsViewStreak (logs : List HabitLogDoc) (u hid tc : Nat)
    (today : Int) : Nat :=
  habitsViewStreakAux logs u hid tc (logs.length + 1) today

def analyticsHabitStreakAux (logs : List HabitLogDoc) (u hid : Nat) :
    Nat → Int → Nat
  | 0, _ => 0
  | n + 1, d =>
    match logs.find? (fun l => l.habit_id == hid && l.user_id == u && l.date == d) with
    | some l =>
      if l.completed.getD false then analyticsHabitStreakAux logs u hid n (d - 1) + 1
      else 0
    | none => 0

/-- Per-habit streak computed inside `/analytics`: `for i in range(365)`,
day `today - i`; a day qualifies when a log exists for the habit and day
and `log.get('completed', False)` is true; `break` otherwise. -/
def analyticsHabitStreak (logs : List HabitLogDoc) (u hid : Nat)
    (today : Int) : Nat :=
  analyticsHabitStreakAux logs u hid 365 today

/-- Generic backward day scan with `fuel` remaining iterations: count
consecutive days (walking back from `d`) on which `q` holds, stopping at
the first failure or when the fuel runs out.  Both streak loops of the
application are instances. -/
def streakFuel (q : Int → Bool) : Nat → Int → Nat
  | 0, _ => 0
  | n + 1, d => if q d then streakFuel q n (d - 1) + 1 else 0

theorem streakFuel_le_fuel (q : Int → Bool) :
    ∀ (fuel : Nat) (d : Int), streakFuel q fuel d ≤ fuel := by
  intro fuel
  induction fuel with
  | zero => intro d; simp [streakFuel]
  | succ n ih =>
    intro d
    by_cases hq : q d = true
    · simpa [streakFuel, hq] using Nat.succ_le_succ (ih (d - 1))
    · simp only [Bool.not_eq_true] at hq
      simp [streakFuel, hq]

theorem streakFuel_spec (q : Int → Bool) :
    ∀ (fuel : Nat) (d : Int) (n : Nat), n ≤ fuel →
      (∀ i : Nat, i < n → q (d - i) = true) →
      (n = fuel ∨ q (d - n) = false) →
      streakFuel q fuel d = n := by
  intro fuel
  induction fuel with
  | zero =>
    intro d n hn _ _
    interval_cases n
    simp [streakFuel]
  | succ m ih =>
    intro d n hn hq hstop
    cases n with
    | zero =>
      rcases hstop with h | h
      · omega
      · simp only [Int.natCast_zero, sub_zero] at h
        simp [streakFuel, h]
    | succ k =>
      have hd : q d = true := by
        have := hq 0 (Nat.succ_pos k)
        simpa using this
      have hrec : streakFuel q m (d - 1) = k := by
        refine ih (d - 1) k (by omega) ?_ ?_
        · intro i hi
          have := hq (i + 1) (by omega)
          have harg : d - ((i + 1 : Nat) : Int) = d - 1 - (i : Int) := by
            push_cast; ring
          rwa [harg] at this
        · rcases hstop with h | h
          · exact Or.inl (by omega)
          · refine Or.inr ?_
            have harg : d - ((k + 1 : Nat) : Int) = d - 1 - (k : Int) := by
              push_cast; ring
            rwa [harg] at h
      simp [streakFuel, hd, hrec]

theorem current_streakAux_eq_streakFuel (goals : List GoalDoc) (u : Nat) :
    ∀ (fuel : Nat) (d : Int),
      current_streakAux goals u fuel d =
        streakFuel (fun d' => decide (0 < completedOnDay goals u d')) fuel d := by
  intro fuel
  induction fuel with
  | zero => intro d; rfl
  | succ n ih =>
    intro d
    by_cases h : 0 < completedOnDay goals u d
    · simp [current_streakAux, streakFuel, h, ih]
    · simp [current_streakAux, streakFuel, h]

/-- C3: the `/analytics` current streak equals the number of consecutive
qualifying calendar days starting at today and scanning backward at most
30 days, where a day qualifies when at least one of the user's goals has
`completed = True` and `updated_at` within that day; the scan stops at the
first non-qualifying day (today not qualifying gives 0, witnessed at
`n = 0`; the witness realises the `{today, today-1, today-2}` example with
a gap at `today-3`, giving 3). -/
theorem current_streak_spec (goals : List GoalDoc) (u : Nat) (today : Int)
    (n : Nat) (hn : n ≤ 30)
    (hqual : ∀ i : Nat, i < n → 0 < completedOnDay goals u (today - i))
    (hstop : n = 30 ∨ completedOnDay goals u (today - n) = 0) :
    current_streak goals u today = n := by
  rw [current_streak, current_streakAux_eq_streakFuel]
  refine streakFuel_spec _ 30 today n hn ?_ ?_
  · intro i hi
    exact decide_eq_true (hqual i hi)
  · rcases hstop with h | h
    · exact Or.inl h
    · exact Or.inr (by simp [h])

/-- A user-1 goal completed (with `updated_at`) on day `d`. -/
def sampleGoal (i : Nat) (d : Int) (h : Nat) (c : Bool) : GoalDoc :=
  { id := i, text := "goal", user_id := 1, completed := c, priority := "medium",
    category := "general", due_date := none, created_at := ⟨d, h⟩,
    updated_at := ⟨d, h⟩ }

/-- Completions on exactly days 0, -1, -2 (relative today = 0), then a gap
at day -3 (the next completion sits at day -5). -/
def streakDB : List GoalDoc :=
  [sampleGoal 1 0 9 true, sampleGoal 2 (-1) 10 true, sampleGoal 3 (-2) 11 true,
   sampleGoal 4 (-5) 12 true, sampleGoal 5 0 9 false]

theorem current_streak_spec_witness :
    (3 : Nat) ≤ 30 ∧ current_streak streakDB 1 0 = 3 :=
  ⟨by decide, current_streak_spec streakDB 1 0 3 (by decide) (by decide)
    (Or.inr (by decide))⟩

/-- C4: the `/analytics` goal completion rate is `0` when the user's total
goal count is `0`, and otherwise `round(completed / total * 100, 1)`. -/
theorem completion_rate_spec (goals : List GoalDoc) (u : Nat) :
    (total_goals goals u = 0 → completion_rate goals u = 0) ∧
    (0 < total_goals goals u →
      completion_rate goals u =
        round1 ((completed_goals goals u : ℚ) / (total_goals goals u : ℚ) * 100)) := by
  constructor
  · intro h
    simp [completion_rate, h, round1]
  · intro h
    simp [completion_rate, h]

theorem completion_rate_spec_witness :
    0 < total_goals streakDB 1 ∧
    completion_rate streakDB 1 =
      round1 ((completed_goals streakDB 1 : ℚ) / (total_goals streakDB 1 : ℚ) * 100) :=
  ⟨by decide, (completion_rate_spec streakDB 1).2 (by decide)⟩

/-- C9: the `/analytics` monthly improvement is `0` whenever the preceding
30-day window (days 60 to 30 back) has zero completions — the division by
that count is never reached — and otherwise equals the percentage change
between the trailing and preceding windows rounded to one decimal (the
formula is negative when the trailing window has fewer completions). -/
theorem monthly_improvement_spec (goals : List GoalDoc) (u : Nat) (today : Int) :
    (previous_month_completed goals u today = 0 →
      monthly_improvement goals u today = 0) ∧
    (0 < previous_month_completed goals u today →
      monthly_improvement goals u today =
        round1 ((((last_month_completed goals u today : ℚ) -
          (previous_month_completed goals u today : ℚ)) /
          (previous_month_completed goals u today : ℚ)) * 100)) := by
  constructor
  · intro h
    simp [monthly_improvement, h]
  · intro h
    simp [monthly_improvement, h]

/-- One completed goal at day -40 (inside the preceding window only): the
previous window holds 1 completion, the trailing window 0, and the
improvement evaluates to the (negative) rounded percentage change. -/
def improvementDB : List GoalDoc := [sampleGoal 1 (-40) 9 true]

theorem monthly_improvement_spec_witness :
    0 < previous_month_completed improvementDB 1 0 ∧
    monthly_improvement improvementDB 1 0 =
      round1 ((((last_month_completed improvementDB 1 0 : ℚ) -
        (previous_month_completed improvementDB 1 0 : ℚ)) /
        (previous_month_completed improvementDB 1 0 : ℚ)) * 100) :=
  ⟨by decide, (monthly_improvement_spec improvementDB 1 0).2 (by decide)⟩

namespace User

/-- The keys of the `user_data` dict that `User.save` writes. -/
def saveKeys : List String :=
  ["username", "email", "password_hash", "google_id", "profile_pic",
   "created_at"]

end User

namespace Goal

/-- The keys of the `goal_data` dict that `Goal.save` writes. -/
def saveKeys : List String :=
  ["text", "user_id", "completed", "priority", "category", "due_date",
   "created_at", "updated_at"]

end Goal

namespace Habit

/-- The keys of the `habit_data` dict that `Habit.save` writes. -/
def saveKeys : List String :=
  ["name", "user_id", "frequency", "target_count", "description", "category",
   "is_active", "created_at"]

end Habit

namespace HabitLog

/-- The keys of the `log_data` dict that `HabitLog.save` writes. -/
def saveKeys : List String :=
  ["habit_id", "user_id", "completed_count", "notes", "date"]

end HabitLog

namespace UtilityBill

/-- The keys of the `bill_data` dict that `UtilityBill.save` writes. -/
def saveKeys : List String :=
  ["bill_type", "user_id", "amount", "date", "consumption", "unit", "notes"]

end UtilityBill

/-- C8 counterexample: `Habit.save`, `User.save` and `UtilityBill.save`
write no `updated_at` key at all, refuting the claim that every save
method except `HabitLog.save` refreshes an `updated_at` timestamp. -/
theorem save_updated_at_counterexample :
    "updated_at" ∉ Habit.saveKeys ∧ "updated_at" ∉ User.saveKeys ∧
    "updated_at" ∉ UtilityBill.saveKeys := by
  refine ⟨?_, ?_, ?_⟩ <;> decide

/-- C8 amended: among the five save methods only `Goal.save` writes an
`updated_at` key — and stamps it with the fresh save-time `utcnow()` —
while `User.save`, `Habit.save`, `HabitLog.save` and `UtilityBill.save`
write none. -/
theorem save_updated_at_amended :
    "updated_at" ∈ Goal.saveKeys ∧
    (∀ (g : GoalDoc) (now : DateTime), (Goal.saveDoc g now).updated_at = now) ∧
    "updated_at" ∉ User.saveKeys ∧ "updated_at" ∉ Habit.saveKeys ∧
    "updated_at" ∉ HabitLog.saveKeys ∧ "updated_at" ∉ UtilityBill.saveKeys :=
  ⟨by decide, fun _ _ => rfl, by decide, by decide, by decide, by decide⟩

/-- The account owner used in the C2 scenario. -/
def sampleUser : UserDoc :=
  { id := 1, username := "alice", email := "alice@example.com",
    password_hash := some "hash", google_id := none, profile_pic := none,
    created_at := ⟨0, 0⟩ }

/-- Database holding only user 1, before any bill is added. -/
def userOnlyDB : AppDB :=
  { users := [sampleUser], goals := [], habits := [], habit_logs := [],
    utility_bills := [], bills := [], user_preferences := [] }

/-- User 1 adds one milk bill through `POST /add_bill`. -/
def billDB : AppDB := add_bill userOnlyDB 1 "milk" 50 2 "liters" none 0 7

/-- C2 failing input: user 1 owns one utility bill created by `add_bill`
(stored in `utility_bills`) and then runs `delete_account` with the
confirmation text `"delete"`.  The user record and the other collections
are cleared, but the bill survives with `user_id = 1`, because
`delete_account` clears the distinct — and otherwise unused — `bills`
collection instead of `utility_bills`. -/
theorem delete_account_misses_utility_bills :
    (delete_account billDB 1 "delete").users = [] ∧
    (delete_account billDB 1 "delete").utility_bills.filter
        (fun b => b.user_id == 1) =
      [{ id := 7, bill_type := "milk", user_id := 1, amount := 50, date := 0,
         consumption := 2, unit := "liters", notes := none }] := by
  constructor <;> rfl

/-- Following the specification's words (for comparison with the code's
`most_productive_time`): the number of the user's completed goals whose
`updated_at` hour falls into time-of-day bucket `b`. -/
def bucketCompletions (goals : List GoalDoc) (u : Nat) (b : String) : Nat :=
  ((completedHours goals u).filter (fun h => get_time_of_day h == b)).length

theorem mem_hourKeys_foldl (l : List Nat) :
    ∀ (acc : List Nat) (h : Nat),
      h ∈ l.foldl (fun acc h => if acc.contains h then acc else acc ++ [h]) acc ↔
        h ∈ acc ∨ h ∈ l := by
  induction l with
  | nil => intro acc h; simp
  | cons x t ih =>
    intro acc h
    simp only [List.foldl_cons]
    by_cases hc : acc.contains x = true
    · rw [if_pos hc, ih]
      have hx : x ∈ acc := by simpa [List.contains_iff_exists_mem_beq, beq_iff_eq] using hc
      constructor
      · rintro (hm | hm)
        · exact Or.inl hm
        · exact Or.inr (List.mem_cons_of_mem _ hm)
      · rintro (hm | hm)
        · exact Or.inl hm
        · rcases List.mem_cons.mp hm with rfl | hm
          · exact Or.inl hx
          · exact Or.inr hm
    · rw [if_neg hc, ih]
      simp only [List.mem_append, List.mem_singleton, List.mem_cons]
      tauto

theorem mem_hourKeys (l : List Nat) (h : Nat) : h ∈ hourKeys l ↔ h ∈ l := by
  rw [hourKeys, mem_hourKeys_foldl]
  simp

theorem foldl_argmax_spec (c : Nat → Nat) :
    ∀ (l : List Nat) (k : Nat),
      c k ≤ c (l.foldl (fun best h => if c h > c best then h else best) k) ∧
      (∀ h ∈ l, c h ≤ c (l.foldl (fun best h => if c h > c best then h else best) k)) ∧
      (l.foldl (fun best h => if c h > c best then h else best) k = k ∨
        l.foldl (fun best h => if c h > c best then h else best) k ∈ l) := by
  intro l
  induction l with
  | nil => intro k; simp
  | cons x t ih =>
    intro k
    simp only [List.foldl_cons]
    by_cases hx : c x > c k
    · rw [if_pos hx]
      obtain ⟨h1, h2, h3⟩ := ih x
      refine ⟨le_trans (le_of_lt hx) h1, ?_, ?_⟩
      · intro h hm
        rcases List.mem_cons.mp hm with rfl | hm
        · exact h1
        · exact h2 h hm
      · rcases h3 with h3 | h3
        · exact Or.inr (by simp [h3])
        · exact Or.inr (List.mem_cons_of_mem _ h3)
    · rw [if_neg hx]
      push_neg at hx
      obtain ⟨h1, h2, h3⟩ := ih k
      refine ⟨h1, ?_, ?_⟩
      · intro h hm
        rcases List.mem_cons.mp hm with rfl | hm
        · exact le_trans hx h1
        · exact h2 h hm
      · rcases h3 with h3 | h3
        · exact Or.inl h3
        · exact Or.inr (List.mem_cons_of_mem _ h3)

/-- C5 counterexample: with completed goals at hours 5, 6, 7, 13, 13 the
morning bucket (hours 5–11) holds 3 completions and the afternoon bucket
only 2, yet the code answers "afternoon": it buckets only the single hour
with the most completions (13), not the bucket with the most completions. -/
theorem most_productive_time_counterexample :
    most_productive_time
      [sampleGoal 1 0 5 true, sampleGoal 2 0 6 true, sampleGoal 3 0 7 true,
       sampleGoal 4 0 13 true, sampleGoal 5 0 13 true] 1 = "afternoon" ∧
    bucketCompletions
      [sampleGoal 1 0 5 true, sampleGoal 2 0 6 true, sampleGoal 3 0 7 true,
       sampleGoal 4 0 13 true, sampleGoal 5 0 13 true] 1 "morning" = 3 ∧
    bucketCompletions
      [sampleGoal 1 0 5 true, sampleGoal 2 0 6 true, sampleGoal 3 0 7 true,
       sampleGoal 4 0 13 true, sampleGoal 5 0 13 true] 1 "afternoon" = 2 :=
  ⟨rfl, rfl, rfl⟩

/-- C5 amended: the most-productive-time value is the time-of-day bucket of
the single hour with the greatest number of completed goals (the
first-encountered such hour on ties), not the bucket with the greatest
aggregate count; it is "morning" when the user has no completed goals
(default hour 9). -/
theorem most_productive_hour_nil (goals : List GoalDoc) (u : Nat)
    (hkeys : hourKeys (completedHours goals u) = []) :
    most_productive_hour goals u = 9 := by
  unfold most_productive_hour
  rw [hkeys]

theorem most_productive_hour_cons (goals : List GoalDoc) (u : Nat)
    (k : Nat) (ks : List Nat)
    (hkeys : hourKeys (completedHours goals u) = k :: ks) :
    most_productive_hour goals u =
      ks.foldl (fun best h =>
        if (completedHours goals u).count h > (completedHours goals u).count best
        then h else best) k := by
  unfold most_productive_hour
  rw [hkeys]

theorem most_productive_time_amended (goals : List GoalDoc) (u : Nat) :
    (completedHours goals u = [] → most_productive_time goals u = "morning") ∧
    (∀ h ∈ completedHours goals u,
      (completedHours goals u).count h ≤
        (completedHours goals u).count (most_productive_hour goals u)) ∧
    (completedHours goals u ≠ [] →
      most_productive_hour goals u ∈ completedHours goals u) := by
  refine ⟨?_, ?_, ?_⟩
  · intro h
    have hkeys : hourKeys (completedHours goals u) = [] := by rw [h]; rfl
    unfold most_productive_time
    rw [most_productive_hour_nil goals u hkeys]
    rfl
  · intro h hm
    have hk : h ∈ hourKeys (completedHours goals u) := (mem_hourKeys _ _).mpr hm
    rcases hkeys : hourKeys (completedHours goals u) with _ | ⟨k, ks⟩
    · rw [hkeys] at hk
      cases hk
    · rw [most_productive_hour_cons goals u k ks hkeys]
      rw [hkeys] at hk
      obtain ⟨h1, h2, _⟩ :=
        foldl_argmax_spec (fun n => (completedHours goals u).count n) ks k
      rcases List.mem_cons.mp hk with rfl | hk
      · exact h1
      · exact h2 h hk
  · intro hne
    rcases hkeys : hourKeys (completedHours goals u) with _ | ⟨k, ks⟩
    · exfalso
      rcases List.exists_mem_of_ne_nil _ hne with ⟨x, hx⟩
      have hx' := (mem_hourKeys (completedHours goals u) x).mpr hx
      rw [hkeys] at hx'
      cases hx'
    · rw [most_productive_hour_cons goals u k ks hkeys]
      obtain ⟨_, _, h3⟩ :=
        foldl_argmax_spec (fun n => (completedHours goals u).count n) ks k
      have hkmem : k ∈ completedHours goals u :=
        (mem_hourKeys _ _).mp (by rw [hkeys]; exact List.mem_cons_self k ks)
      rcases h3 with h3 | h3
      · rw [h3]
        exact hkmem
      · exact (mem_hourKeys _ _).mp
          (by rw [hkeys]; exact List.mem_cons_of_mem _ h3)

theorem most_productive_time_amended_witness :
    completedHours ([] : List GoalDoc) 1 = [] ∧
    most_productive_time ([] : List GoalDoc) 1 = "morning" ∧
    (9 : Nat) ∈ completedHours [sampleGoal 1 0 9 true] 1 ∧
    (completedHours [sampleGoal 1 0 9 true] 1).count 9 ≤
      (completedHours [sampleGoal 1 0 9 true] 1).count
        (most_productive_hour [sampleGoal 1 0 9 true] 1) :=
  ⟨rfl, (most_productive_time_amended [] 1).1 rfl, by decide,
   (most_productive_time_amended [sampleGoal 1 0 9 true] 1).2.1 9 (by decide)⟩

/-- Day qualification of the `/habits` streak loop: a log for the habit,
user and day exists with `completed_count >= habit.target_count`. -/
def habitsViewQualifies (logs : List HabitLogDoc) (u hid tc : Nat)
    (d : Int) : Bool :=
  match logs.find? (fun l => l.habit_id == hid && l.user_id == u && l.date == d) with
  | some l => decide (tc ≤ l.completed_count)
  | none => false

/-- Day qualification of the `/analytics` per-habit streak loop: a log for
the habit, user and day exists and `log.get('completed', False)` is true. -/
def analyticsQualifies (logs : List HabitLogDoc) (u hid : Nat)
    (d : Int) : Bool :=
  match logs.find? (fun l => l.habit_id == hid && l.user_id == u && l.date == d) with
  | some l => l.completed.getD false
  | none => false

theorem habitsViewStreakAux_eq (logs : List HabitLogDoc) (u hid tc : Nat) :
    ∀ (fuel : Nat) (d : Int),
      habitsViewStreakAux logs u hid tc fuel d =
        streakFuel (habitsViewQualifies logs u hid tc) fuel d := by
  intro fuel
  induction fuel with
  | zero => intro d; rfl
  | succ n ih =>
    intro d
    cases hf : logs.find? (fun l => l.habit_id == hid && l.user_id == u && l.date == d) with
    | none => simp [habitsViewStreakAux, streakFuel, habitsViewQualifies, hf]
    | some l =>
      by_cases hc : tc ≤ l.completed_count
      · simp [habitsViewStreakAux, streakFuel, habitsViewQualifies, hf, hc, ih]
      · simp [habitsViewStreakAux, streakFuel, habitsViewQualifies, hf, hc]

theorem analyticsHabitStreakAux_eq (logs : List HabitLogDoc) (u hid : Nat) :
    ∀ (fuel : Nat) (d : Int),
      analyticsHabitStreakAux logs u hid fuel d =
        streakFuel (analyticsQualifies logs u hid) fuel d := by
  intro fuel
  induction fuel with
  | zero => intro d; rfl
  | succ n ih =>
    intro d
    cases hf : logs.find? (fun l => l.habit_id == hid && l.user_id == u && l.date == d) with
    | none => simp [analyticsHabitStreakAux, streakFuel, analyticsQualifies, hf]
    | some l =>
      by_cases hc : l.completed.getD false = true
      · simp [analyticsHabitStreakAux, streakFuel, analyticsQualifies, hf, hc, ih]
      · simp only [Bool.not_eq_true] at hc
        simp [analyticsHabitStreakAux, streakFuel, analyticsQualifies, hf, hc]

/-- A log for habit 1 and user 1 with one completion on day `-i`, as
`log_habit` would create it (no `completed` flag). -/
def dailyLog (i : Nat) : HabitLogDoc :=
  { id := i, habit_id := 1, user_id := 1, completed_count := 1, notes := none,
    date := -(i : Int), completed := none }

/-- 366 consecutive logged days: today (day 0) back to day -365. -/
def logs366 : List HabitLogDoc := (List.range 366).map dailyLog

set_option maxRecDepth 100000 in
set_option maxHeartbeats 8000000 in
/-- C7 counterexample: with a target of 1 met on 366 consecutive days the
`/habits` streak is 366 — its `while True` loop counted a day lying 365
days back, beyond the claimed at-most-365-day scan — while the
`/analytics` streak on the same data is 0 (no stored log carries the
boolean `completed` flag that loop tests). -/
theorem habit_streak_counterexample :
    habitsViewStreak logs366 1 1 1 0 = 366 ∧
    analyticsHabitStreak logs366 1 1 0 = 0 := by
  constructor
  · rfl
  · rfl

/-- C7 amended: the two per-habit streak computations are indeed distinct
and both count consecutive qualifying days ending at today, stopping at
the first non-qualifying day — but only the `/analytics` loop (qualifying
by the boolean `completed` flag) is capped at 365 days; the `/habits` loop
(qualifying by `completed_count ≥ target_count`) is an unbounded
`while True` and its streak can exceed 365. -/
theorem habit_streaks_amended (logs : List HabitLogDoc) (u hid tc : Nat)
    (today : Int) :
    (analyticsHabitStreak logs u hid today ≤ 365) ∧
    (∀ n : Nat, n ≤ 365 →
      (∀ i : Nat, i < n → analyticsQualifies logs u hid (today - i) = true) →
      (n = 365 ∨ analyticsQualifies logs u hid (today - n) = false) →
      analyticsHabitStreak logs u hid today = n) ∧
    (∀ n : Nat, n ≤ logs.length →
      (∀ i : Nat, i < n → habitsViewQualifies logs u hid tc (today - i) = true) →
      habitsViewQualifies logs u hid tc (today - n) = false →
      habitsViewStreak logs u hid tc today = n) := by
  refine ⟨?_, ?_, ?_⟩
  · rw [analyticsHabitStreak, analyticsHabitStreakAux_eq]
    exact streakFuel_le_fuel _ 365 today
  · intro n hn hq hstop
    rw [analyticsHabitStreak, analyticsHabitStreakAux_eq]
    exact streakFuel_spec _ 365 today n hn hq hstop
  · intro n hn hq hstop
    rw [habitsViewStreak, habitsViewStreakAux_eq]
    exact streakFuel_spec _ (logs.length + 1) today n (by omega) hq (Or.inr hstop)

/-- One logged day (today) for habit 1 / user 1. -/
def logsW : List HabitLogDoc := [dailyLog 0]

theorem habit_streaks_amended_witness :
    analyticsHabitStreak logsW 1 1 0 = 0 ∧ habitsViewStreak logsW 1 1 1 0 = 1 :=
  ⟨(habit_streaks_amended logsW 1 1 1 0).2.1 0 (by decide) (by decide)
     (Or.inr (by decide)),
   (habit_streaks_amended logsW 1 1 1 0).2.2 1 (by decide) (by decide)
     (by decide)⟩

theorem updateFirst_append_of_none {p : α → Bool} {f : α → α} {l1 l2 : List α}
    (h : ∀ x ∈ l1, p x = false) :
    updateFirst p f (l1 ++ l2) = l1 ++ updateFirst p f l2 := by
  induction l1 with
  | nil => rfl
  | cons x t ih =>
    have hx := h x (List.mem_cons_self x t)
    simp only [List.cons_append, updateFirst, hx, Bool.false_eq_true,
      if_false, List.cons.injEq, true_and]
    exact ih (fun y hy => h y (List.mem_cons_of_mem x hy))

/-- The log document `log_habit`'s else-branch inserts on the first
same-day logging of a habit: `completed_count = 1`, no notes, today's
date, no `completed` flag. -/
def freshLog (id1 hid u : Nat) (today : Int) : HabitLogDoc :=
  { id := id1, habit_id := hid, user_id := u, completed_count := 1,
    notes := none, date := today, completed := none }

/-- C6: starting from a state with no stored log for habit `hid` on
`today` (and a fresh insert id), two `log_habit` calls by the habit's
owner leave exactly one stored log for the `(habit id, date)` pair
`(hid, today)`, with `completed_count = 2`: the first call inserts the
count-1 log and the second call increments that same log instead of
inserting a second row. -/
theorem log_habit_upsert (habits : List HabitDoc) (logs : List HabitLogDoc)
    (u hid id1 id2 : Nat) (today : Int)
    (howned : (habits.find? (fun h => h.id == hid && h.user_id == u)).isSome)
    (hfresh : ∀ l ∈ logs, l.id ≠ id1)
    (hnolog : logs.filter (fun l => l.habit_id == hid && l.date == today) = []) :
    (log_habit habits (log_habit habits logs u hid today id1)
        u hid today id2).filter
        (fun l => l.habit_id == hid && l.date == today) =
      [{ freshLog id1 hid u today with completed_count := 2 }] := by
  obtain ⟨h0, hh⟩ := Option.isSome_iff_exists.mp howned
  have hkeys := List.filter_eq_nil_iff.mp hnolog
  have hfind1 : logs.find?
      (fun l => l.habit_id == hid && l.user_id == u && l.date == today) = none := by
    rw [List.find?_eq_none]
    intro x hx hpx
    apply hkeys x hx
    simp only [Bool.and_eq_true, beq_iff_eq] at hpx ⊢
    exact ⟨hpx.1.1, hpx.2⟩
  have hL1 : log_habit habits logs u hid today id1 =
      logs ++ [freshLog id1 hid u today] := by
    unfold log_habit
    rw [hh, hfind1]
    rfl
  have hfind2 : (logs ++ [freshLog id1 hid u today]).find?
      (fun l => l.habit_id == hid && l.user_id == u && l.date == today) =
      some (freshLog id1 hid u today) := by
    rw [List.find?_append, hfind1]
    simp [freshLog]
  have hL2 : log_habit habits (log_habit habits logs u hid today id1)
      u hid today id2 =
      logs ++ [{ freshLog id1 hid u today with completed_count := 2 }] := by
    rw [hL1]
    simp only [log_habit, hh, hfind2]
    have hnomatch : ∀ x ∈ logs,
        (x.id == (freshLog id1 hid u today).id) = false := by
      intro x hx
      simpa [freshLog, beq_eq_false_iff_ne] using hfresh x hx
    rw [updateFirst_append_of_none hnomatch]
    simp [updateFirst, freshLog]
  rw [hL2, List.filter_append, hnolog]
  simp [freshLog]

/-- An active habit owned by user 1 with daily target 1. -/
def sampleHabit : HabitDoc :=
  { id := 1, name := "run", user_id := 1, frequency := "daily",
    target_count := 1, description := none, category := "general",
    is_active := true, created_at := ⟨0, 0⟩ }

theorem log_habit_upsert_witness :
    ([sampleHabit].find? (fun h => h.id == 1 && h.user_id == 1)).isSome = true ∧
    (log_habit [sampleHabit] (log_habit [sampleHabit] [] 1 1 0 5)
        1 1 0 6).filter (fun l => l.habit_id == 1 && l.date == 0) =
      [{ freshLog 5 1 1 0 with completed_count := 2 }] :=
  ⟨by decide, log_habit_upsert [sampleHabit] [] 1 1 5 6 0 (by decide)
    (by decide) (by decide)⟩

theorem find?_updateFirst_self {p : α → Bool} {f : α → α} {l : List α} {a : α}
    (h : l.find? p = some a) (hf : p (f a) = true) :
    (updateFirst p f l).find? p = some (f a) := by
  induction l with
  | nil => simp [List.find?] at h
  | cons x t ih =>
    by_cases hx : p x = true
    · rw [List.find?_cons_of_pos _ hx] at h
      obtain rfl := Option.some.injEq _ _ ▸ h
      simp only [updateFirst, hx, if_true]
      exact List.find?_cons_of_pos _ hf
    · simp only [Bool.not_eq_true] at hx
      rw [List.find?_cons_of_neg _ (by simp [hx])] at h
      simp only [updateFirst, hx, Bool.false_eq_true, if_false]
      rw [List.find?_cons_of_neg _ (by simp [hx])]
      exact ih h

/-- A single `toggle_goal` request by the owner: the stored goal becomes
the original with `completed` negated and `updated_at` refreshed, and all
other fields untouched. -/
theorem toggle_goal_effect (goals : List GoalDoc) (u gid : Nat)
    (now : DateTime) (g : GoalDoc)
    (hfind : Goal.find_by_id goals gid = some g) (hown : g.user_id = u) :
    Goal.find_by_id (toggle_goal goals u gid now) gid =
      some { g with completed := !g.completed, updated_at := now } := by
  have hbeq : (g.user_id != u) = false := by simp [hown]
  have hid : g.id = gid := by
    have := List.find?_some hfind
    simpa [beq_iff_eq] using this
  simp only [toggle_goal, hfind, hbeq, Bool.false_eq_true, if_false]
  unfold Goal.save_existing Goal.find_by_id
  have hpred : (fun d : GoalDoc =>
      d.id == ({ g with completed := !g.completed, updated_at := now }).id) =
      (fun d : GoalDoc => d.id == gid) := by
    funext d
    simp [hid]
  rw [hpred]
  exact find?_updateFirst_self hfind (by simp [Goal.saveDoc, hid])

/-- C10: for a goal owned by the session user, one `toggle_goal` negates
exactly the `completed` flag — leaving `text`, `priority`, `category`,
`due_date`, `user_id` and `created_at` untouched and refreshing only
`updated_at` — and a second toggle restores the original `completed`
value. -/
theorem toggle_goal_spec (goals : List GoalDoc) (u gid : Nat)
    (now now2 : DateTime) (g : GoalDoc)
    (hfind : Goal.find_by_id goals gid = some g) (hown : g.user_id = u) :
    Goal.find_by_id (toggle_goal goals u gid now) gid =
      some { g with completed := !g.completed, updated_at := now } ∧
    Goal.find_by_id
        (toggle_goal (toggle_goal goals u gid now) u gid now2) gid =
      some { g with updated_at := now2 } := by
  have h1 := toggle_goal_effect goals u gid now g hfind hown
  refine ⟨h1, ?_⟩
  have h2 := toggle_goal_effect (toggle_goal goals u gid now) u gid now2
    { g with completed := !g.completed, updated_at := now } h1 hown
  simpa [Bool.not_not] using h2

/-- A pending goal of user 1 with id 3. -/
def toggleGoalDoc : GoalDoc :=
  { id := 3, text := "write report", user_id := 1, completed := false,
    priority := "high", category := "work", due_date := some 2,
    created_at := ⟨0, 8⟩, updated_at := ⟨0, 8⟩ }

theorem toggle_goal_spec_witness :
    Goal.find_by_id [toggleGoalDoc] 3 = some toggleGoalDoc ∧
    Goal.find_by_id (toggle_goal [toggleGoalDoc] 1 3 ⟨1, 9⟩) 3 =
      some { toggleGoalDoc with completed := !toggleGoalDoc.completed,
                                updated_at := ⟨1, 9⟩ } ∧
    Goal.find_by_id
        (toggle_goal (toggle_goal [toggleGoalDoc] 1 3 ⟨1, 9⟩) 1 3 ⟨1, 10⟩) 3 =
      some { toggleGoalDoc with updated_at := ⟨1, 10⟩ } :=
  ⟨rfl,
   (toggle_goal_spec [toggleGoalDoc] 1 3 ⟨1, 9⟩ ⟨1, 10⟩ toggleGoalDoc rfl rfl).1,
   (toggle_goal_spec [toggleGoalDoc] 1 3 ⟨1, 9⟩ ⟨1, 10⟩ toggleGoalDoc rfl rfl).2⟩

/-- Unique ids under the projection `f` — MongoDB enforces this for the
`_id` key of every collection through its unique index. -/
abbrev UniqueBy (f : α → Nat) (l : List α) : Prop :=
  l.Pairwise (fun a b => f a ≠ f b)

theorem uniqueBy_eq {f : α → Nat} {l : List α} (hu : UniqueBy f l)
    {a b : α} (ha : a ∈ l) (hb : b ∈ l) (h : f a = f b) : a = b := by
  by_contra hne
  have hsymm : Symmetric (fun a b : α => f a ≠ f b) :=
    fun x y hxy e => hxy e.symm
  exact absurd h (List.Pairwise.forall hsymm hu ha hb hne)

theorem mem_save_existing_of_ne_id {db : List GoalDoc} {g d : GoalDoc}
    {now : DateTime} (hd : d ∈ db) (hne : d.id ≠ g.id) :
    d ∈ Goal.save_existing db g now := by
  rcases mem_updateFirst_or_found (p := fun x => x.id == g.id)
    (f := fun _ => Goal.saveDoc g now) hd with h | h
  · exact h
  · exact absurd (by simpa [beq_iff_eq] using List.find?_some h) hne

theorem mem_deleteDoc_of_ne_id {db : List GoalDoc} {gid : Nat} {d : GoalDoc}
    (hd : d ∈ db) (hne : d.id ≠ gid) : d ∈ Goal.deleteDoc db gid := by
  rcases mem_removeFirst_or_found (p := fun x => x.id == gid) hd with h | h
  · exact h
  · exact absurd (by simpa [beq_iff_eq] using List.find?_some h) hne

theorem goal_id_ne_of_other_user {goals : List GoalDoc}
    (hu : UniqueBy GoalDoc.id goals) {d g : GoalDoc}
    (hd : d ∈ goals) (hg : g ∈ goals) (hdu : d.user_id ≠ g.user_id) :
    d.id ≠ g.id := by
  intro h
  exact hdu (congrArg GoalDoc.user_id (uniqueBy_eq hu hd hg h))

theorem toggle_goal_frames_other (goals : List GoalDoc) (u gid : Nat)
    (now : DateTime) (hu : UniqueBy GoalDoc.id goals) (d : GoalDoc)
    (hd : d ∈ goals) (hdu : d.user_id ≠ u) :
    d ∈ toggle_goal goals u gid now := by
  cases hfind : Goal.find_by_id goals gid with
  | none => simp only [toggle_goal, hfind]; exact hd
  | some g =>
    cases hbu : (g.user_id != u) with
    | true => simp only [toggle_goal, hfind, hbu, if_true]; exact hd
    | false =>
      have hgu : g.user_id = u := by simpa using hbu
      have hg : g ∈ goals := List.mem_of_find?_eq_some hfind
      simp only [toggle_goal, hfind, hbu, Bool.false_eq_true, if_false]
      apply mem_save_existing_of_ne_id hd
      show d.id ≠ g.id
      exact goal_id_ne_of_other_user hu hd hg (by rw [hgu]; exact hdu)

theorem edit_goal_frames_other (goals : List GoalDoc) (u gid : Nat)
    (text priority category : String) (dd : Option Int) (now : DateTime)
    (hu : UniqueBy GoalDoc.id goals) (d : GoalDoc)
    (hd : d ∈ goals) (hdu : d.user_id ≠ u) :
    d ∈ edit_goal goals u gid text priority category dd now := by
  cases hfind : Goal.find_by_id goals gid with
  | none => simp only [edit_goal, hfind]; exact hd
  | some g =>
    cases hbu : (g.user_id != u) with
    | true => simp only [edit_goal, hfind, hbu, if_true]; exact hd
    | false =>
      have hgu : g.user_id = u := by simpa using hbu
      have hg : g ∈ goals := List.mem_of_find?_eq_some hfind
      simp only [edit_goal, hfind, hbu, Bool.false_eq_true, if_false]
      apply mem_save_existing_of_ne_id hd
      show d.id ≠ g.id
      exact goal_id_ne_of_other_user hu hd hg (by rw [hgu]; exact hdu)

theorem delete_goal_frames_other (goals : List GoalDoc) (u gid : Nat)
    (hu : UniqueBy GoalDoc.id goals) (d : GoalDoc)
    (hd : d ∈ goals) (hdu : d.user_id ≠ u) :
    d ∈ delete_goal goals u gid := by
  cases hfind : Goal.find_by_id goals gid with
  | none => simp only [delete_goal, hfind]; exact hd
  | some g =>
    cases hbu : (g.user_id != u) with
    | true => simp only [delete_goal, hfind, hbu, if_true]; exact hd
    | false =>
      have hgu : g.user_id = u := by simpa using hbu
      have hg : g ∈ goals := List.mem_of_find?_eq_some hfind
      simp only [delete_goal, hfind, hbu, Bool.false_eq_true, if_false]
      apply mem_deleteDoc_of_ne_id hd
      exact goal_id_ne_of_other_user hu hd hg (by rw [hgu]; exact hdu)

theorem bulk_valid_goals_mem (goals : List GoalDoc) (u : Nat)
    (gids : List Nat) :
    ∀ g ∈ gids.filterMap (fun gid =>
      match Goal.find_by_id goals gid with
      | some g => if g.user_id == u then some g else none
      | none => none), g ∈ goals ∧ g.user_id = u := by
  intro g hg
  rcases List.mem_filterMap.mp hg with ⟨gid, _, hmap⟩
  split at hmap
  · rename_i g0 hfind
    split at hmap
    · rename_i hgu
      obtain rfl : g0 = g := by simpa using hmap
      exact ⟨List.mem_of_find?_eq_some hfind, by simpa [beq_iff_eq] using hgu⟩
    · cases hmap
  · cases hmap

theorem mem_foldl_save_other {u : Nat} {goals : List GoalDoc}
    (hu : UniqueBy GoalDoc.id goals) {now : DateTime} {d : GoalDoc}
    (hd0 : d ∈ goals) (hdu : d.user_id ≠ u) :
    ∀ (vg : List GoalDoc) (db : List GoalDoc),
      (∀ g ∈ vg, g ∈ goals ∧ g.user_id = u) → d ∈ db →
      d ∈ vg.foldl (fun db g =>
        Goal.save_existing db
          { g with completed := true, updated_at := now } now) db := by
  intro vg
  induction vg with
  | nil => intro db _ hd; exact hd
  | cons g t ih =>
    intro db hvg hd
    simp only [List.foldl_cons]
    apply ih _ (fun x hx => hvg x (List.mem_cons_of_mem g hx))
    apply mem_save_existing_of_ne_id hd
    have hg := hvg g (List.mem_cons_self g t)
    show d.id ≠ g.id
    exact goal_id_ne_of_other_user hu hd0 hg.1 (by rw [hg.2]; exact hdu)

theorem mem_foldl_delete_other {u : Nat} {goals : List GoalDoc}
    (hu : UniqueBy GoalDoc.id goals) {d : GoalDoc}
    (hd0 : d ∈ goals) (hdu : d.user_id ≠ u) :
    ∀ (vg : List GoalDoc) (db : List GoalDoc),
      (∀ g ∈ vg, g ∈ goals ∧ g.user_id = u) → d ∈ db →
      d ∈ vg.foldl (fun db g => Goal.deleteDoc db g.id) db := by
  intro vg
  induction vg with
  | nil => intro db _ hd; exact hd
  | cons g t ih =>
    intro db hvg hd
    simp only [List.foldl_cons]
    apply ih _ (fun x hx => hvg x (List.mem_cons_of_mem g hx))
    apply mem_deleteDoc_of_ne_id hd
    have hg := hvg g (List.mem_cons_self g t)
    exact goal_id_ne_of_other_user hu hd0 hg.1 (by rw [hg.2]; exact hdu)

theorem bulk_action_frames_other (goals : List GoalDoc) (u : Nat)
    (action : String) (gids : List Nat) (now : DateTime)
    (hu : UniqueBy GoalDoc.id goals) (d : GoalDoc)
    (hd : d ∈ goals) (hdu : d.user_id ≠ u) :
    d ∈ bulk_action goals u action gids now := by
  unfold bulk_action
  split
  · exact mem_foldl_save_other hu hd hdu _ goals
      (bulk_valid_goals_mem goals u gids) hd
  · split
    · exact mem_foldl_delete_other hu hd hdu _ goals
        (bulk_valid_goals_mem goals u gids) hd
    · exact hd

theorem edit_habit_frames_other (habits : List HabitDoc) (u hid : Nat)
    (name : String) (description : Option String) (frequency : String)
    (target_count : Nat) (category : String) (d : HabitDoc)
    (hd : d ∈ habits) (hdu : d.user_id ≠ u) :
    d ∈ edit_habit habits u hid name description frequency target_count category := by
  cases hfind : habits.find? (fun h => h.id == hid && h.user_id == u) with
  | none => simp only [edit_habit, hfind]; exact hd
  | some h0 =>
    simp only [edit_habit, hfind]
    rcases mem_updateFirst_or_found
      (p := fun h => h.id == hid && h.user_id == u) hd with h | h
    · exact h
    · have := List.find?_some h
      simp only [Bool.and_eq_true, beq_iff_eq] at this
      exact absurd this.2 hdu

theorem delete_habit_frames_other_habits (habits : List HabitDoc)
    (logs : List HabitLogDoc) (u hid : Nat) (d : HabitDoc)
    (hd : d ∈ habits) (hdu : d.user_id ≠ u) :
    d ∈ (delete_habit habits logs u hid).1 := by
  cases hfind : habits.find? (fun h => h.id == hid && h.user_id == u) with
  | none => simp only [delete_habit, hfind]; exact hd
  | some h0 =>
    simp only [delete_habit, hfind]
    rcases mem_removeFirst_or_found
      (p := fun h => h.id == hid && h.user_id == u) hd with h | h
    · exact h
    · have := List.find?_some h
      simp only [Bool.and_eq_true, beq_iff_eq] at this
      exact absurd this.2 hdu

theorem delete_habit_frames_other_logs (habits : List HabitDoc)
    (logs : List HabitLogDoc) (u hid : Nat) (l : HabitLogDoc)
    (hl : l ∈ logs)
    (hcons : ∀ h ∈ habits, l.habit_id = h.id → l.user_id = h.user_id)
    (hlu : l.user_id ≠ u) :
    l ∈ (delete_habit habits logs u hid).2 := by
  cases hfind : habits.find? (fun h => h.id == hid && h.user_id == u) with
  | none => simp only [delete_habit, hfind]; exact hl
  | some h0 =>
    simp only [delete_habit, hfind]
    have hp := List.find?_some hfind
    simp only [Bool.and_eq_true, beq_iff_eq] at hp
    have hmem : h0 ∈ habits := List.mem_of_find?_eq_some hfind
    refine List.mem_filter.mpr ⟨hl, ?_⟩
    simp only [Bool.not_eq_eq_eq_not, Bool.not_true, beq_eq_false_iff_ne]
    intro heq
    exact hlu (by rw [hcons h0 hmem (by rw [heq, hp.1]), hp.2])

theorem edit_bill_frames_other (bills : List BillDoc) (u bid : Nat)
    (bill_type : String) (amount consumption : ℚ) (unit : String)
    (notes : Option String) (dte : Int) (d : BillDoc)
    (hd : d ∈ bills) (hdu : d.user_id ≠ u) :
    d ∈ edit_bill bills u bid bill_type amount consumption unit notes dte := by
  cases hfind : bills.find? (fun b => b.id == bid && b.user_id == u) with
  | none => simp only [edit_bill, hfind]; exact hd
  | some b0 =>
    simp only [edit_bill, hfind]
    rcases mem_updateFirst_or_found
      (p := fun b => b.id == bid && b.user_id == u) hd with h | h
    · exact h
    · have := List.find?_some h
      simp only [Bool.and_eq_true, beq_iff_eq] at this
      exact absurd this.2 hdu

theorem delete_bill_frames_other (bills : List BillDoc) (u bid : Nat)
    (d : BillDoc) (hd : d ∈ bills) (hdu : d.user_id ≠ u) :
    d ∈ delete_bill bills u bid := by
  cases hfind : bills.find? (fun b => b.id == bid && b.user_id == u) with
  | none => simp only [delete_bill, hfind]; exact hd
  | some b0 =>
    simp only [delete_bill, hfind]
    rcases mem_removeFirst_or_found
      (p := fun b => b.id == bid && b.user_id == u) hd with h | h
    · exact h
    · have := List.find?_some h
      simp only [Bool.and_eq_true, beq_iff_eq] at this
      exact absurd this.2 hdu

/-- C1: every listing operation scoped to a user returns only documents
with that user's id, and every mutating route — goal edit/toggle/delete,
bulk action, habit edit/delete (including the cascade on habit logs, under
the store invariant that a log's user matches its habit's owner), bill
edit/delete — leaves every document of another user unchanged.  The goal
routes, whose store filter carries only `_id`, additionally assume the
unique-`_id` index MongoDB maintains (`UniqueBy GoalDoc.id`). -/
theorem ownership_scoping :
    (∀ (goals : List GoalDoc) (u : Nat) (g : GoalDoc),
      g ∈ Goal.find_by_user_id goals u → g.user_id = u) ∧
    (∀ (habits : List HabitDoc) (u : Nat) (h : HabitDoc),
      h ∈ Habit.find_by_user_id habits u → h.user_id = u) ∧
    (∀ (bills : List BillDoc) (u : Nat) (t : String) (b : BillDoc),
      b ∈ UtilityBill.find_by_user_and_type bills u t → b.user_id = u) ∧
    (∀ (goals : List GoalDoc) (u gid : Nat) (now : DateTime) (d : GoalDoc),
      UniqueBy GoalDoc.id goals → d ∈ goals → d.user_id ≠ u →
      d ∈ toggle_goal goals u gid now) ∧
    (∀ (goals : List GoalDoc) (u gid : Nat) (text priority category : String)
      (dd : Option Int) (now : DateTime) (d : GoalDoc),
      UniqueBy GoalDoc.id goals → d ∈ goals → d.user_id ≠ u →
      d ∈ edit_goal goals u gid text priority category dd now) ∧
    (∀ (goals : List GoalDoc) (u gid : Nat) (d : GoalDoc),
      UniqueBy GoalDoc.id goals → d ∈ goals → d.user_id ≠ u →
      d ∈ delete_goal goals u gid) ∧
    (∀ (goals : List GoalDoc) (u : Nat) (action : String) (gids : List Nat)
      (now : DateTime) (d : GoalDoc),
      UniqueBy GoalDoc.id goals → d ∈ goals → d.user_id ≠ u →
      d ∈ bulk_action goals u action gids now) ∧
    (∀ (habits : List HabitDoc) (u hid : Nat) (name : String)
      (description : Option String) (frequency : String) (target_count : Nat)
      (category : String) (d : HabitDoc),
      d ∈ habits → d.user_id ≠ u →
      d ∈ edit_habit habits u hid name description frequency target_count category) ∧
    (∀ (habits : List HabitDoc) (logs : List HabitLogDoc) (u hid : Nat)
      (d : HabitDoc), d ∈ habits → d.user_id ≠ u →
      d ∈ (delete_habit habits logs u hid).1) ∧
    (∀ (habits : List HabitDoc) (logs : List HabitLogDoc) (u hid : Nat)
      (l : HabitLogDoc), l ∈ logs →
      (∀ h ∈ habits, l.habit_id = h.id → l.user_id = h.user_id) →
      l.user_id ≠ u → l ∈ (delete_habit habits logs u hid).2) ∧
    (∀ (bills : List BillDoc) (u bid : Nat) (bill_type : String)
      (amount consumption : ℚ) (unit : String) (notes : Option String)
      (dte : Int) (d : BillDoc), d ∈ bills → d.user_id ≠ u →
      d ∈ edit_bill bills u bid bill_type amount consumption unit notes dte) ∧
    (∀ (bills : List BillDoc) (u bid : Nat) (d : BillDoc),
      d ∈ bills → d.user_id ≠ u → d ∈ delete_bill bills u bid) := by
  refine ⟨?_, ?_, ?_, ?_, ?_, ?_, ?_, ?_, ?_, ?_, ?_, ?_⟩
  · intro goals u g hg
    have := List.mem_filter.mp hg
    simpa [beq_iff_eq] using this.2
  · intro habits u h hh
    have := List.mem_filter.mp hh
    simp only [Bool.and_eq_true, beq_iff_eq] at this
    exact this.2.1
  · intro bills u t b hb
    have hb' := List.mem_mergeSort.mp hb
    have := List.mem_filter.mp hb'
    simp only [Bool.and_eq_true, beq_iff_eq] at this
    exact this.2.1
  · intro goals u gid now d hu hd hdu
    exact toggle_goal_frames_other goals u gid now hu d hd hdu
  · intro goals u gid text priority category dd now d hu hd hdu
    exact edit_goal_frames_other goals u gid text priority category dd now hu d hd hdu
  · intro goals u gid d hu hd hdu
    exact delete_goal_frames_other goals u gid hu d hd hdu
  · intro goals u action gids now d hu hd hdu
    exact bulk_action_frames_other goals u action gids now hu d hd hdu
  · intro habits u hid name description frequency target_count category d hd hdu
    exact edit_habit_frames_other habits u hid name description frequency
      target_count category d hd hdu
  · intro habits logs u hid d hd hdu
    exact delete_habit_frames_other_habits habits logs u hid d hd hdu
  · intro habits logs u hid l hl hcons hlu
    exact delete_habit_frames_other_logs habits logs u hid l hl hcons hlu
  · intro bills u bid bill_type amount consumption unit notes dte d hd hdu
    exact edit_bill_frames_other bills u bid bill_type amount consumption
      unit notes dte d hd hdu
  · intro bills u bid d hd hdu
    exact delete_bill_frames_other bills u bid d hd hdu

/-- A completed goal of user 2, sharing the store with user 1's goal. -/
def otherUserGoal : GoalDoc :=
  { id := 4, text := "other", user_id := 2, completed := true,
    priority := "low", category := "general", due_date := none,
    created_at := ⟨0, 7⟩, updated_at := ⟨0, 7⟩ }

theorem ownership_scoping_witness :
    toggleGoalDoc.user_id = 1 ∧
    otherUserGoal ∈ toggle_goal [toggleGoalDoc, otherUserGoal] 1 3 ⟨2, 9⟩ :=
  ⟨ownership_scoping.1 [toggleGoalDoc] 1 toggleGoalDoc (by decide),
   ownership_scoping.2.2.2.1 [toggleGoalDoc, otherUserGoal] 1 3 ⟨2, 9⟩
     otherUserGoal (by decide) (by decide) (by decide)⟩
